import Mathlib

/-!
Verification development for the Inventory-Management-System repository.

The repository is a React inventory console; the logic verified here is the
set of derived-field computations performed inside its form components:

* BillFormModal.tsx: payment reconciliation inside handleSubmit, the
  handleStatusChange / handlePurchaseOrderChange interactive handlers, and the
  Bills.tsx collection update handleSaveBill.
* SalesOrderFormModal.tsx: handleAddItem, handleRemoveItem, handleItemChange
  and handleGstChange, which maintain the derived subTotal, gstAmount and
  grandTotal fields.
* ProductFormModal (unnamed source file): the stock-status derivation in its
  handleSubmit.

JavaScript numbers are modelled as exact rationals (Rat); string-valued ids
are modelled as String, with the empty string standing for a missing
(undefined) optional id, matching the truthiness tests the source performs.
-/

namespace Inventory

/-! ## Bill form: data model (BillFormModal.tsx) -/

/-- Payment status of a bill.  The source stores the literal strings
"Unpaid", "Partially Paid" and "Paid"; partPaid stands for "Partially Paid". -/
inductive BillStatus where
  | unpaid
  | partPaid
  | paid
deriving DecidableEq

/-- The payment-relevant fields of BillFormData.  The source record also
carries billNo, poReference, supplierName, dates and notes; those fields are
opaque to every claim (they are copied through unchanged) and are omitted. -/
structure BillFormData where
  id : String
  purchaseOrderId : String
  amount : Rat
  paidAmount : Rat
  status : BillStatus
deriving DecidableEq

/-- The three toast.error rejections handleSubmit can raise. -/
inductive BillError where
  | selectionRequired
  | invalidAmount
  | insufficientPayment
deriving DecidableEq

/-- Shallow embedding of handleSubmit in BillFormModal.tsx (lines 139-188).
The source validates the purchase-order selection, computes
totalPaid = min(amount, paidAmount + newPaymentAmount), rejects a
"Partially Paid" submission with totalPaid less than or equal to 0, promotes it to
"Paid" when totalPaid reaches the amount, rejects a "Paid" submission whose
totalPaid is below the amount, and otherwise calls onSave with the final
status and totalPaid as the new paidAmount. -/
def handleSubmitBill (formData : BillFormData) (newPaymentAmount : Rat) :
    Except BillError BillFormData :=
  if formData.purchaseOrderId = "" then
    .error .selectionRequired
  else
    let totalPaid := min formData.amount (formData.paidAmount + newPaymentAmount)
    if formData.status = .partPaid ∧ totalPaid ≤ 0 then
      .error .invalidAmount
    else
      let finalStatus : BillStatus :=
        if formData.status = .partPaid ∧ formData.amount ≤ totalPaid then .paid
        else formData.status
      if formData.status = .paid ∧ totalPaid < formData.amount then
        .error .insufficientPayment
      else
        .ok { formData with status := finalStatus, paidAmount := totalPaid }

/-- Shallow embedding of handleSaveBill in Bills.tsx (lines 122-132): a bill
with a truthy id replaces its match in the stored list, otherwise the bill is
prepended with a freshly generated id (the Date.now-based id is passed in as
newId). -/
def handleSaveBill (newId : String) (bills : List BillFormData)
    (data : BillFormData) : List BillFormData :=
  if data.id ≠ "" then
    bills.map (fun b => if b.id = data.id then data else b)
  else
    { data with id := newId } :: bills

/-- A full submission as wired in Bills.tsx: the modal calls onSave
(handleSaveBill) only when handleSubmit reaches the end without returning
early, so a rejected submission leaves the stored bill list untouched. -/
def submitAndSave (newId : String) (bills : List BillFormData)
    (formData : BillFormData) (newPaymentAmount : Rat) : List BillFormData :=
  match handleSubmitBill formData newPaymentAmount with
  | .error _ => bills
  | .ok data => handleSaveBill newId bills data

/-- The bill data-model invariant from the specification:
status = Paid implies paid at least amount; status = Unpaid implies paid = 0. -/
def billInvariant (b : BillFormData) : Prop :=
  (b.status = .paid → b.amount ≤ b.paidAmount) ∧
  (b.status = .unpaid → b.paidAmount = 0)

instance (b : BillFormData) : Decidable (billInvariant b) :=
  inferInstanceAs (Decidable (And _ _))

/-! ## Product form: data model (ProductFormModal, unnamed source file) -/

/-- The fields of ProductFormData read by the claims: the stock-status
derivation uses stock, minStock and isActive, and the sales-order form reads
id and sellingPrice from the product catalog.  name, category, sku,
costPrice, image and unitType are copied through unchanged and are omitted. -/
structure ProductFormData where
  id : String
  sellingPrice : Rat
  stock : Rat
  minStock : Rat
  status : String
  isActive : Bool
deriving DecidableEq

/-- Shallow embedding of ProductFormModal.handleSubmit: the saved status is
recomputed from the active switch and the stock level.  The source
initialises calculatedStatus from the switch and then overrides it for an
active product that is out of stock or at or below its minimum stock. -/
def handleSubmitProduct (formData : ProductFormData) : ProductFormData :=
  let calculatedStatus : String := if formData.isActive then "Active" else "Inactive"
  let calculatedStatus : String :=
    if formData.isActive ∧ formData.stock = 0 then "Out of Stock"
    else if formData.isActive ∧ formData.stock ≤ formData.minStock then "Low Stock"
    else calculatedStatus
  { formData with status := calculatedStatus }

/-! ## Sales-order form: data model (SalesOrderFormModal.tsx) -/

/-- One line item of the sales-order form. -/
structure SalesOrderItem where
  id : String
  productId : String
  quantity : Rat
  sellingPrice : Rat
  total : Rat
deriving DecidableEq

/-- The computation-relevant fields of SalesOrderFormData.  referenceNo,
date, customerName, notes and status are opaque to the claims and omitted.
gstPercentage is optional in the source; none models undefined. -/
structure SalesOrderFormData where
  items : List SalesOrderItem
  subTotal : Rat
  gstPercentage : Option Rat
  gstAmount : Rat
  grandTotal : Rat
deriving DecidableEq

/-- The reduce in handleRemoveItem and handleItemChange:
items.reduce((sum, item) => sum + item.total, 0). -/
def sumTotals (items : List SalesOrderItem) : Rat :=
  items.foldl (fun sum item => sum + item.total) 0

/-- The gst recomputation in handleRemoveItem and handleItemChange: the
source writes prev.gstPercentage ? (newSubTotal * prev.gstPercentage) / 100 : 0,
and the JavaScript truthiness test is false exactly on undefined and 0. -/
def gstOf (gstPercentage : Option Rat) (newSubTotal : Rat) : Rat :=
  match gstPercentage with
  | some g => if g = 0 then 0 else newSubTotal * g / 100
  | none => 0

/-- Shallow embedding of handleAddItem (lines 163-177): a fresh row with
quantity 1, no product and zero price and total is appended; the aggregate
fields are not recomputed.  The random row id is passed in as rowId. -/
def handleAddItem (rowId : String) (prev : SalesOrderFormData) : SalesOrderFormData :=
  { prev with items := prev.items ++
      [{ id := rowId, productId := "", quantity := 1, sellingPrice := 0, total := 0 }] }

/-- Shallow embedding of handleRemoveItem (lines 179-195): the row is
filtered out and subTotal, gstAmount and grandTotal are recomputed from the
remaining rows. -/
def handleRemoveItem (rowId : String) (prev : SalesOrderFormData) : SalesOrderFormData :=
  let newItems := prev.items.filter (fun item => item.id != rowId)
  let newSubTotal := sumTotals newItems
  let newGstAmount := gstOf prev.gstPercentage newSubTotal
  let newGrandTotal := newSubTotal + newGstAmount
  { prev with
    items := newItems
    subTotal := newSubTotal
    gstAmount := newGstAmount
    grandTotal := newGrandTotal }

/-- One edit of a line-item field, as dispatched by the three call sites of
handleItemChange: the product select passes the chosen product id (a
string), the quantity and selling-price inputs pass the parsed number (NaN
already replaced by 0 at the call site). -/
inductive ItemEdit where
  | productId (pid : String)
  | quantity (q : Rat)
  | sellingPrice (p : Rat)
deriving DecidableEq

/-- Shallow embedding of handleItemChange (lines 197-248): in the matching
row the field is updated (a numeric value is clamped with Math.max(0, value);
a product change also auto-fills the selling price from the catalog when the
product is found), the row total is recomputed as quantity × sellingPrice,
and the aggregate fields are recomputed from the new rows. -/
def handleItemChange (products : List ProductFormData) (rowId : String)
    (edit : ItemEdit) (prev : SalesOrderFormData) : SalesOrderFormData :=
  let newItems := prev.items.map (fun item =>
    if item.id = rowId then
      let updatedItem :=
        match edit with
        | .productId pid =>
          let withField := { item with productId := pid }
          match products.find? (fun (p : ProductFormData) => p.id == pid) with
          | some product => { withField with sellingPrice := product.sellingPrice }
          | none => withField
        | .quantity q => { item with quantity := max 0 q }
        | .sellingPrice p => { item with sellingPrice := max 0 p }
      { updatedItem with total := updatedItem.quantity * updatedItem.sellingPrice }
    else item)
  let newSubTotal := sumTotals newItems
  let newGstAmount := gstOf prev.gstPercentage newSubTotal
  let newGrandTotal := newSubTotal + newGstAmount
  { prev with
    items := newItems
    subTotal := newSubTotal
    gstAmount := newGstAmount
    grandTotal := newGrandTotal }

/-- Shallow embedding of handleGstChange (lines 250-262): the input string is
parsed with parseFloat (none models NaN), replaced by 0 when NaN, clamped to
be non-negative, stored as the new gstPercentage, and gstAmount and
grandTotal are recomputed from the existing subTotal. -/
def handleGstChange (val : Option Rat) (prev : SalesOrderFormData) : SalesOrderFormData :=
  let gstPerc : Rat := match val with | none => 0 | some v => max 0 v
  let gstAmount := prev.subTotal * gstPerc / 100
  { prev with
    gstPercentage := some gstPerc
    gstAmount := gstAmount
    grandTotal := prev.subTotal + gstAmount }

/-- defaultFormData of the sales-order form: no items, all totals 0. -/
def defaultFormData : SalesOrderFormData :=
  { items := [], subTotal := 0, gstPercentage := some 0, gstAmount := 0, grandTotal := 0 }

/-- The user interactions of the sales-order form that feed the total
computations. -/
inductive SalesAction where
  | addItem (rowId : String)
  | removeItem (rowId : String)
  | itemChange (rowId : String) (edit : ItemEdit)
  | gstChange (val : Option Rat)
deriving DecidableEq

def applySalesAction (products : List ProductFormData)
    (prev : SalesOrderFormData) : SalesAction → SalesOrderFormData
  | .addItem rowId => handleAddItem rowId prev
  | .removeItem rowId => handleRemoveItem rowId prev
  | .itemChange rowId edit => handleItemChange products rowId edit prev
  | .gstChange val => handleGstChange val prev

/-- Running a sequence of interactions from the empty form. -/
def runSalesActions (products : List ProductFormData)
    (acts : List SalesAction) : SalesOrderFormData :=
  acts.foldl (applySalesAction products) defaultFormData

/-- Removing every line item of a form, one handleRemoveItem per row. -/
def removeAllItems (f : SalesOrderFormData) : SalesOrderFormData :=
  (f.items.map (fun item => item.id)).foldl
    (fun st rowId => handleRemoveItem rowId st) f

/-- Every line item carries the derived row total quantity × sellingPrice. -/
def rowsConsistent (f : SalesOrderFormData) : Prop :=
  ∀ item ∈ f.items, item.total = item.quantity * item.sellingPrice

instance (f : SalesOrderFormData) : Decidable (rowsConsistent f) :=
  inferInstanceAs (Decidable (∀ item ∈ f.items,
    item.total = item.quantity * item.sellingPrice))

/-- The tax rate the claims speak about: gstPercentage, reading the
undefined optional as 0. -/
def gstRate (f : SalesOrderFormData) : Rat :=
  f.gstPercentage.getD 0

/-- The aggregate fields are the derived values the specification describes:
subTotal is the sum of the row totals, gstAmount is
subTotal × gstPercentage / 100, grandTotal is subTotal + gstAmount. -/
def totalsConsistent (f : SalesOrderFormData) : Prop :=
  f.subTotal = sumTotals f.items ∧
  f.gstAmount = f.subTotal * gstRate f / 100 ∧
  f.grandTotal = f.subTotal + f.gstAmount

instance (f : SalesOrderFormData) : Decidable (totalsConsistent f) :=
  inferInstanceAs (Decidable (And _ _))

/-- Non-negativity of every number the sales-order form derives. -/
def salesNonneg (f : SalesOrderFormData) : Prop :=
  (∀ item ∈ f.items, 0 ≤ item.quantity ∧ 0 ≤ item.sellingPrice ∧ 0 ≤ item.total) ∧
  0 ≤ f.subTotal ∧ 0 ≤ gstRate f ∧ 0 ≤ f.gstAmount ∧ 0 ≤ f.grandTotal

instance (f : SalesOrderFormData) : Decidable (salesNonneg f) :=
  inferInstanceAs (Decidable (And _ _))

/-! ## Bill modal as a state machine (BillFormModal.tsx interactive handlers) -/

/-- The purchase-order fields the bill form reads: id and grand total
(referenceNo and supplierId only feed display fields). -/
structure PurchaseOrder where
  id : String
  grandTotal : Rat
deriving DecidableEq

/-- The interactive events of the bill modal that touch the payment fields:
handlePurchaseOrderChange with a purchase order found in the list,
handleStatusChange, and typing in the Pay Now input, which the form renders
only while the status is "Partially Paid" (none models a parse to NaN).  The
remaining controls (bill number, dates, notes) do not touch these fields,
and the Already Paid input is read-only. -/
inductive BillEvent where
  | selectPO (po : PurchaseOrder)
  | statusChange (s : BillStatus)
  | setNewPayment (val : Option Rat)
deriving DecidableEq

/-- The modal state: the form record plus the separate newPaymentAmount
useState. -/
structure BillFormState where
  form : BillFormData
  newPaymentAmount : Rat
deriving DecidableEq

/-- Shallow embedding of the three handlers.  selectPO sets the purchase
order id and amount and resets the recorded paid amount (lines 93-106);
statusChange sets the status, auto-fills Pay Now with the remaining due when
switching to "Paid", and zeroes both payment fields when switching to
"Unpaid" (lines 108-119); setNewPayment stores the clamped parsed value and
is a no-op outside "Partially Paid" because the input is not rendered. -/
def billStep (st : BillFormState) : BillEvent → BillFormState
  | .selectPO po =>
    { st with form := { st.form with
        purchaseOrderId := po.id
        amount := po.grandTotal
        paidAmount := 0 } }
  | .statusChange s =>
    let f := { st.form with status := s }
    match s with
    | .paid =>
      { form := f, newPaymentAmount := max 0 (st.form.amount - st.form.paidAmount) }
    | .unpaid => { form := { f with paidAmount := 0 }, newPaymentAmount := 0 }
    | .partPaid => { st with form := f }
  | .setNewPayment val =>
    if st.form.status = .partPaid then
      { st with newPaymentAmount := match val with | none => 0 | some v => max 0 v }
    else st

/-- Opening the modal on a bill (the useEffect): the form is loaded from the
bill and the Pay Now amount is reset to 0.  A new bill starts from the
default record, which is initEditBill of a default-valued bill. -/
def initEditBill (b : BillFormData) : BillFormState :=
  { form := b, newPaymentAmount := 0 }

def runBillEvents (b : BillFormData) (events : List BillEvent) : BillFormState :=
  events.foldl billStep (initEditBill b)

/-- Environment fact about an event: a selectable purchase order has a
non-negative grand total (grand totals are sums of clamped non-negative line
items, like the sales-order totals). -/
def billEventOK : BillEvent → Prop
  | .selectPO po => 0 ≤ po.grandTotal
  | .statusChange _ => True
  | .setNewPayment _ => True

instance : (e : BillEvent) → Decidable (billEventOK e)
  | .selectPO po => inferInstanceAs (Decidable (0 ≤ po.grandTotal))
  | .statusChange _ => inferInstanceAs (Decidable True)
  | .setNewPayment _ => inferInstanceAs (Decidable True)

/-- Reachability invariant of the bill modal: while the declared status is
"Unpaid" both the recorded paid amount and the pending Pay Now amount are 0,
and the bill amount is never negative. -/
def billStateInv (st : BillFormState) : Prop :=
  (st.form.status = .unpaid → st.form.paidAmount = 0 ∧ st.newPaymentAmount = 0) ∧
  0 ≤ st.form.amount

instance (st : BillFormState) : Decidable (billStateInv st) :=
  inferInstanceAs (Decidable (And _ _))

/-! ## Bill form: theorems for claims C1 to C4 -/

/-- C1: for every bill-form submission with a selected purchase order, bill
amount A, prior paid amount P and new payment amount N, if the submission is
accepted then the bill passed to onSave has paidAmount = min(A, P + N). -/
theorem submit_paidAmount_eq_min (f : BillFormData) (n : Rat) (b : BillFormData)
    (hpo : f.purchaseOrderId ≠ "")
    (h : handleSubmitBill f n = .ok b) :
    b.paidAmount = min f.amount (f.paidAmount + n) := by
  simp only [handleSubmitBill, if_neg hpo] at h
  split_ifs at h <;> injection h with h <;> subst h <;> rfl

/-- Witness for C1: bill amount 100, prior paid 40, new payment 10 yields a
saved paidAmount of min(100, 40 + 10) = 50. -/
theorem submit_paidAmount_eq_min_witness :
    ({ id := "", purchaseOrderId := "PO-1", amount := 100, paidAmount := 50,
       status := .partPaid } : BillFormData).paidAmount = min 100 (40 + 10) :=
  submit_paidAmount_eq_min
    { id := "", purchaseOrderId := "PO-1", amount := 100, paidAmount := 40,
      status := .partPaid } 10
    { id := "", purchaseOrderId := "PO-1", amount := 100, paidAmount := 50,
      status := .partPaid }
    (by decide) (by norm_num [handleSubmitBill]; rfl)

/-- C2 counterexample: the claim omits the purchase-order requirement.  A
submission declared "Partially Paid" with bill amount 100, prior paid 40 and
new payment 60 (total paid 100, reaching the amount) but no selected purchase
order is rejected with the selection-required error instead of being accepted
with status "Paid". -/
theorem submit_partPaid_full_no_po_rejected :
    handleSubmitBill
      { id := "", purchaseOrderId := "", amount := 100, paidAmount := 40,
        status := .partPaid } 60 = .error .selectionRequired := by
  norm_num [handleSubmitBill]

/-- C2 (amended with a selected purchase order): a submission declared
"Partially Paid" with a selected purchase order whose total paid
min(A, P + N) is positive and reaches the bill amount is accepted and the
saved bill has status "Paid". -/
theorem submit_partPaid_full_promoted (f : BillFormData) (n : Rat)
    (hpo : f.purchaseOrderId ≠ "")
    (hst : f.status = .partPaid)
    (hpos : 0 < min f.amount (f.paidAmount + n))
    (hfull : f.amount ≤ min f.amount (f.paidAmount + n)) :
    handleSubmitBill f n =
      .ok { f with status := .paid,
                   paidAmount := min f.amount (f.paidAmount + n) } := by
  have h1 : ¬(f.status = .partPaid ∧ min f.amount (f.paidAmount + n) ≤ 0) := by
    rintro ⟨-, hle⟩
    exact absurd (lt_of_lt_of_le hpos hle) (lt_irrefl 0)
  have h3 : ¬(f.status = .paid ∧ min f.amount (f.paidAmount + n) < f.amount) := by
    rintro ⟨hp, -⟩
    rw [hst] at hp
    cases hp
  simp only [handleSubmitBill, if_neg hpo, if_neg h1, if_neg h3,
    if_pos (And.intro hst hfull)]

/-- Witness for C2 (the specification example): bill amount 100, prior paid
40, new payment 60, declared "Partially Paid", with a purchase order
selected: accepted and saved as "Paid" with paidAmount 100. -/
theorem submit_partPaid_full_promoted_witness :
    handleSubmitBill
      { id := "", purchaseOrderId := "PO-1", amount := 100, paidAmount := 40,
        status := .partPaid } 60 =
      .ok { id := "", purchaseOrderId := "PO-1", amount := 100,
            paidAmount := min 100 (40 + 60), status := .paid } :=
  submit_partPaid_full_promoted
    { id := "", purchaseOrderId := "PO-1", amount := 100, paidAmount := 40,
      status := .partPaid } 60
    (by decide) rfl (by norm_num) (by norm_num)

/-- C3: a submission declared "Paid" with a selected purchase order whose
total paid min(A, P + N) is below the bill amount is rejected with the
insufficient-payment validation error, and the stored bill collection is left
unchanged (onSave is never called). -/
theorem submit_paid_insufficient_rejected (f : BillFormData) (n : Rat)
    (hpo : f.purchaseOrderId ≠ "")
    (hst : f.status = .paid)
    (hlt : min f.amount (f.paidAmount + n) < f.amount) :
    handleSubmitBill f n = .error .insufficientPayment ∧
      ∀ newId bills, submitAndSave newId bills f n = bills := by
  have h1 : ¬(f.status = .partPaid ∧ min f.amount (f.paidAmount + n) ≤ 0) := by
    rintro ⟨hp, -⟩
    rw [hst] at hp
    cases hp
  have hmain : handleSubmitBill f n = .error .insufficientPayment := by
    simp only [handleSubmitBill, if_neg hpo, if_neg h1, if_pos (And.intro hst hlt)]
  exact ⟨hmain, fun newId bills => by rw [submitAndSave, hmain]⟩

/-- Witness for C3 (the specification example): bill amount 100, prior paid
0, new payment 30, declared "Paid": rejected, and a stored collection holding
one bill is unchanged. -/
theorem submit_paid_insufficient_rejected_witness :
    handleSubmitBill
      { id := "", purchaseOrderId := "PO-1", amount := 100, paidAmount := 0,
        status := .paid } 30 = .error .insufficientPayment ∧
    submitAndSave "bill-7"
      [{ id := "b1", purchaseOrderId := "PO-9", amount := 5, paidAmount := 5,
         status := .paid }]
      { id := "", purchaseOrderId := "PO-1", amount := 100, paidAmount := 0,
        status := .paid } 30 =
      [{ id := "b1", purchaseOrderId := "PO-9", amount := 5, paidAmount := 5,
         status := .paid }] :=
  ⟨(submit_paid_insufficient_rejected
      { id := "", purchaseOrderId := "PO-1", amount := 100, paidAmount := 0,
        status := .paid } 30 (by decide) rfl (by norm_num)).1,
   (submit_paid_insufficient_rejected
      { id := "", purchaseOrderId := "PO-1", amount := 100, paidAmount := 0,
        status := .paid } 30 (by decide) rfl (by norm_num)).2 "bill-7" _⟩

/-- C4: a submission declared "Partially Paid" with a selected purchase order
whose total paid min(A, P + N) is at most 0 is rejected as invalid, and
onSave is never called (the stored collection is unchanged). -/
theorem submit_partPaid_nonpos_rejected (f : BillFormData) (n : Rat)
    (hpo : f.purchaseOrderId ≠ "")
    (hst : f.status = .partPaid)
    (hle : min f.amount (f.paidAmount + n) ≤ 0) :
    handleSubmitBill f n = .error .invalidAmount ∧
      ∀ newId bills, submitAndSave newId bills f n = bills := by
  have hmain : handleSubmitBill f n = .error .invalidAmount := by
    simp only [handleSubmitBill, if_neg hpo]
    rw [if_pos ⟨hst, hle⟩]
  exact ⟨hmain, fun newId bills => by rw [submitAndSave, hmain]⟩

/-- Witness for C4 (the specification example): bill amount 100, prior paid
0, new payment 0, declared "Partially Paid": rejected as invalid and the
stored collection is unchanged. -/
theorem submit_partPaid_nonpos_rejected_witness :
    handleSubmitBill
      { id := "", purchaseOrderId := "PO-1", amount := 100, paidAmount := 0,
        status := .partPaid } 0 = .error .invalidAmount ∧
    submitAndSave "bill-8" []
      { id := "", purchaseOrderId := "PO-1", amount := 100, paidAmount := 0,
        status := .partPaid } 0 = [] :=
  ⟨(submit_partPaid_nonpos_rejected
      { id := "", purchaseOrderId := "PO-1", amount := 100, paidAmount := 0,
        status := .partPaid } 0 (by decide) rfl (by norm_num)).1,
   (submit_partPaid_nonpos_rejected
      { id := "", purchaseOrderId := "PO-1", amount := 100, paidAmount := 0,
        status := .partPaid } 0 (by decide) rfl (by norm_num)).2 "bill-8" []⟩

/-! ## Product form: theorem for claim C8 -/

/-- C8: the saved product status is derived from the active switch and the
stock level, reading the three stock-based cases in the order the derivation
lists them: an active product with stock 0 is saved "Out of Stock"; an
active product with 0 < stock ≤ minStock is saved "Low Stock"; an active
product with nonzero stock above minStock is saved "Active"; a non-active
product is saved "Inactive" regardless of stock. -/
theorem productStatus_cases (f : ProductFormData) :
    (f.isActive = true → f.stock = 0 →
      (handleSubmitProduct f).status = "Out of Stock") ∧
    (f.isActive = true → 0 < f.stock → f.stock ≤ f.minStock →
      (handleSubmitProduct f).status = "Low Stock") ∧
    (f.isActive = true → f.stock ≠ 0 → f.minStock < f.stock →
      (handleSubmitProduct f).status = "Active") ∧
    (f.isActive = false → (handleSubmitProduct f).status = "Inactive") := by
  refine ⟨fun ha h0 => ?_, fun ha hpos hle => ?_, fun ha hne hgt => ?_, fun ha => ?_⟩
  · simp [handleSubmitProduct, ha, h0]
  · have h0 : ¬(f.stock = 0) := ne_of_gt hpos
    simp [handleSubmitProduct, ha, h0, hle]
  · have hnle : ¬(f.stock ≤ f.minStock) := not_le.2 hgt
    simp [handleSubmitProduct, ha, hne, hnle]
  · simp [handleSubmitProduct, ha]

/-- Witness for C8: an active product with stock 5 and minimum stock 10 is
saved "Low Stock". -/
theorem productStatus_cases_witness :
    (handleSubmitProduct
      { id := "p1", sellingPrice := 20, stock := 5, minStock := 10,
        status := "Active", isActive := true }).status = "Low Stock" :=
  (productStatus_cases
    { id := "p1", sellingPrice := 20, stock := 5, minStock := 10,
      status := "Active", isActive := true }).2.1
    rfl (by norm_num) (by norm_num)

/-! ## Sales-order form: theorems for claims C5, C6, C7 and C10 -/

/-- The truthiness-guarded gst recomputation agrees with the specification
formula subTotal × rate / 100, reading an undefined rate as 0. -/
theorem gstOf_eq_rate (g : Option Rat) (s : Rat) :
    gstOf g s = s * g.getD 0 / 100 := by
  cases g with
  | none => simp [gstOf]
  | some v =>
    by_cases hv : v = 0 <;> simp [gstOf, hv]

theorem gstOf_zero (g : Option Rat) : gstOf g 0 = 0 := by
  rw [gstOf_eq_rate, zero_mul, zero_div]

/-- handleItemChange keeps every row total derived: the edited row is
recomputed, the other rows were already consistent. -/
theorem itemChange_rowsConsistent (products : List ProductFormData)
    (rowId : String) (edit : ItemEdit) (f : SalesOrderFormData)
    (hrow : rowsConsistent f) :
    rowsConsistent (handleItemChange products rowId edit f) := by
  intro item hmem
  rcases List.mem_map.1 hmem with ⟨item0, hmem0, rfl⟩
  by_cases hid : item0.id = rowId
  · simp only [if_pos hid]
  · simp only [if_neg hid]
    exact hrow item0 hmem0

/-- Every state the sales-order form reaches from empty keeps the derived
row totals and subTotal that the edit handlers rely on (the hypotheses of
the C5 theorem hold in every reachable form state). -/
theorem runSalesActions_derived (products : List ProductFormData)
    (acts : List SalesAction) :
    rowsConsistent (runSalesActions products acts) ∧
    (runSalesActions products acts).subTotal =
      sumTotals (runSalesActions products acts).items := by
  suffices h : ∀ f, rowsConsistent f → f.subTotal = sumTotals f.items →
      rowsConsistent (acts.foldl (applySalesAction products) f) ∧
      (acts.foldl (applySalesAction products) f).subTotal =
        sumTotals (acts.foldl (applySalesAction products) f).items by
    exact h defaultFormData
      (fun item hmem => absurd hmem (List.not_mem_nil item)) rfl
  induction acts with
  | nil => exact fun f h1 h2 => ⟨h1, h2⟩
  | cons a acts ih =>
    intro f h1 h2
    rw [List.foldl_cons]
    apply ih
    · cases a with
      | addItem rowId =>
        intro item hmem
        rcases List.mem_append.1 hmem with hmem | hmem
        · exact h1 item hmem
        · rw [List.mem_singleton.1 hmem]
          norm_num
      | removeItem rowId =>
        exact fun item hmem => h1 item (List.mem_of_mem_filter hmem)
      | itemChange rowId edit =>
        exact itemChange_rowsConsistent products rowId edit f h1
      | gstChange val => exact fun item hmem => h1 item hmem
    · cases a with
      | addItem rowId =>
        show f.subTotal = sumTotals (f.items ++
          [{ id := rowId, productId := "", quantity := 1,
             sellingPrice := 0, total := 0 }])
        rw [sumTotals, List.foldl_append]
        show f.subTotal = sumTotals f.items + 0
        rw [add_zero]
        exact h2
      | removeItem rowId => rfl
      | itemChange rowId edit => rfl
      | gstChange val => exact h2

/-- C5: after a line-item field edit (quantity, selling price or product) or
a GST-rate change, starting from a form whose rows and subTotal are the
derived values the data model describes (every reachable form state, by
runSalesActions_derived), every row total is quantity × sellingPrice,
subTotal is the sum of the row totals, gstAmount is
subTotal × gstPercentage / 100, and grandTotal is subTotal + gstAmount. -/
theorem itemChange_gstChange_keep_derived (products : List ProductFormData)
    (f : SalesOrderFormData)
    (hrow : rowsConsistent f)
    (hsub : f.subTotal = sumTotals f.items) :
    (∀ rowId edit,
      rowsConsistent (handleItemChange products rowId edit f) ∧
      totalsConsistent (handleItemChange products rowId edit f)) ∧
    (∀ val,
      rowsConsistent (handleGstChange val f) ∧
      totalsConsistent (handleGstChange val f)) := by
  constructor
  · intro rowId edit
    exact ⟨itemChange_rowsConsistent products rowId edit f hrow,
      rfl, gstOf_eq_rate _ _, rfl⟩
  · intro val
    refine ⟨fun item hmem => hrow item hmem, hsub, rfl, rfl⟩

/-- Witness for C5: one consistent row (quantity 2, price 3, total 6) with
subTotal 6; after a GST change to 50 percent the derived fields are
consistent. -/
theorem itemChange_gstChange_keep_derived_witness :
    totalsConsistent (handleGstChange (some 50)
      { items := [{ id := "r1", productId := "p1", quantity := 2,
                    sellingPrice := 3, total := 6 }],
        subTotal := 6, gstPercentage := some 0, gstAmount := 0,
        grandTotal := 6 }) :=
  ((itemChange_gstChange_keep_derived []
      { items := [{ id := "r1", productId := "p1", quantity := 2,
                    sellingPrice := 3, total := 6 }],
        subTotal := 6, gstPercentage := some 0, gstAmount := 0,
        grandTotal := 6 }
      (by norm_num [rowsConsistent])
      (by norm_num [sumTotals])).2 (some 50)).2

/-- Folding handleRemoveItem over a list of row ids filters out every row
whose id occurs in the list. -/
theorem foldRemove_items (L : List String) (f : SalesOrderFormData) :
    (L.foldl (fun st rowId => handleRemoveItem rowId st) f).items =
      f.items.filter (fun item => !L.contains item.id) := by
  induction L generalizing f with
  | nil => simp
  | cons r L ih =>
    rw [List.foldl_cons, ih]
    show ((f.items.filter (fun item => item.id != r)).filter
        (fun item => !L.contains item.id)) = _
    rw [List.filter_filter]
    congr 1
    funext item
    simp only [List.contains_cons, Bool.not_or]
    rw [Bool.and_comm]
    rfl

/-- Removing every row id of a form empties its item list. -/
theorem removeAllItems_items (f : SalesOrderFormData) :
    (removeAllItems f).items = [] := by
  rw [removeAllItems, foldRemove_items]
  rw [List.filter_eq_nil_iff]
  intro item hmem
  simp
  exact ⟨item, hmem, rfl⟩

/-- A nonempty fold of removals ends with a removal. -/
theorem foldRemove_last (L : List String) (hL : L ≠ []) (f : SalesOrderFormData) :
    ∃ r g, L.foldl (fun st rowId => handleRemoveItem rowId st) f =
      handleRemoveItem r g := by
  induction L generalizing f with
  | nil => exact absurd rfl hL
  | cons r L ih =>
    cases L with
    | nil => exact ⟨r, f, rfl⟩
    | cons r2 L2 =>
      rw [List.foldl_cons]
      exact ih (by simp) (handleRemoveItem r f)

/-- C6: removing a line item keeps only the other rows and recomputes
subTotal, gstAmount and grandTotal from them alone; removing every line item
of a form that has at least one drives all three to 0. -/
theorem removeItem_recomputes_and_empties (f : SalesOrderFormData) :
    (∀ rowId,
      (handleRemoveItem rowId f).items =
        f.items.filter (fun item => item.id != rowId) ∧
      (handleRemoveItem rowId f).subTotal =
        sumTotals ((handleRemoveItem rowId f).items) ∧
      (handleRemoveItem rowId f).gstAmount =
        (handleRemoveItem rowId f).subTotal * gstRate f / 100 ∧
      (handleRemoveItem rowId f).grandTotal =
        (handleRemoveItem rowId f).subTotal + (handleRemoveItem rowId f).gstAmount) ∧
    (f.items ≠ [] →
      (removeAllItems f).items = [] ∧
      (removeAllItems f).subTotal = 0 ∧
      (removeAllItems f).gstAmount = 0 ∧
      (removeAllItems f).grandTotal = 0) := by
  constructor
  · intro rowId
    exact ⟨rfl, rfl, gstOf_eq_rate _ _, rfl⟩
  · intro hne
    obtain ⟨r, g, hfold⟩ := foldRemove_last (f.items.map (fun item => item.id))
      (by simpa using hne) f
    have heq : removeAllItems f = handleRemoveItem r g := hfold
    have hitems : (handleRemoveItem r g).items = [] := by
      rw [← heq]
      exact removeAllItems_items f
    have hsub : (handleRemoveItem r g).subTotal = 0 := by
      show sumTotals ((handleRemoveItem r g).items) = 0
      rw [hitems]
      rfl
    have hgst : (handleRemoveItem r g).gstAmount = 0 := by
      show gstOf g.gstPercentage ((handleRemoveItem r g).subTotal) = 0
      rw [hsub, gstOf_zero]
    have hgrand : (handleRemoveItem r g).grandTotal = 0 := by
      show (handleRemoveItem r g).subTotal + (handleRemoveItem r g).gstAmount = 0
      rw [hsub, hgst, add_zero]
    rw [heq]
    exact ⟨hitems, hsub, hgst, hgrand⟩

/-- Witness for C6: a two-row form with 18 percent GST; removing every row
yields an empty form with zero totals. -/
theorem removeItem_recomputes_and_empties_witness :
    (removeAllItems
      { items := [{ id := "r1", productId := "p1", quantity := 2,
                    sellingPrice := 3, total := 6 },
                  { id := "r2", productId := "p2", quantity := 1,
                    sellingPrice := 4, total := 4 }],
        subTotal := 10, gstPercentage := some 18, gstAmount := 1.8,
        grandTotal := 11.8 }).subTotal = 0 :=
  ((removeItem_recomputes_and_empties
      { items := [{ id := "r1", productId := "p1", quantity := 2,
                    sellingPrice := 3, total := 6 },
                  { id := "r2", productId := "p2", quantity := 1,
                    sellingPrice := 4, total := 4 }],
        subTotal := 10, gstPercentage := some 18, gstAmount := 1.8,
        grandTotal := 11.8 }).2 (by simp)).2.1

theorem foldl_totals_nonneg (items : List SalesOrderItem) (c : Rat) (hc : 0 ≤ c)
    (h : ∀ item ∈ items, 0 ≤ item.total) :
    0 ≤ items.foldl (fun sum item => sum + item.total) c := by
  induction items generalizing c with
  | nil => exact hc
  | cons it items ih =>
    rw [List.foldl_cons]
    exact ih _ (add_nonneg hc (h it (by simp)))
      (fun item hm => h item (by simp [hm]))

theorem sumTotals_nonneg (items : List SalesOrderItem)
    (h : ∀ item ∈ items, 0 ≤ item.total) : 0 ≤ sumTotals items :=
  foldl_totals_nonneg items 0 le_rfl h

theorem gstOf_nonneg (g : Option Rat) (s : Rat)
    (hg : 0 ≤ g.getD 0) (hs : 0 ≤ s) : 0 ≤ gstOf g s := by
  rw [gstOf_eq_rate]
  exact div_nonneg (mul_nonneg hs hg) (by norm_num)

/-- Every single form interaction preserves non-negativity of the derived
numbers, provided every catalog selling price is non-negative. -/
theorem applySalesAction_nonneg (products : List ProductFormData)
    (hp : ∀ p ∈ products, 0 ≤ p.sellingPrice)
    (f : SalesOrderFormData) (hf : salesNonneg f) (a : SalesAction) :
    salesNonneg (applySalesAction products f a) := by
  obtain ⟨hrows, hsub, hrate, hgst, hgrand⟩ := hf
  cases a with
  | addItem rowId =>
    refine ⟨?_, hsub, hrate, hgst, hgrand⟩
    intro item hmem
    rcases List.mem_append.1 hmem with h | h
    · exact hrows item h
    · rw [List.mem_singleton.1 h]
      norm_num
  | removeItem rowId =>
    have hrows2 : ∀ item ∈ (handleRemoveItem rowId f).items,
        0 ≤ item.quantity ∧ 0 ≤ item.sellingPrice ∧ 0 ≤ item.total :=
      fun item hmem => hrows item (List.mem_of_mem_filter hmem)
    have hsub2 : 0 ≤ (handleRemoveItem rowId f).subTotal :=
      sumTotals_nonneg _ (fun item hm => (hrows2 item hm).2.2)
    exact ⟨hrows2, hsub2, hrate, gstOf_nonneg _ _ hrate hsub2,
      add_nonneg hsub2 (gstOf_nonneg _ _ hrate hsub2)⟩
  | itemChange rowId edit =>
    have hrows2 : ∀ item ∈ (handleItemChange products rowId edit f).items,
        0 ≤ item.quantity ∧ 0 ≤ item.sellingPrice ∧ 0 ≤ item.total := by
      intro item hmem
      rcases List.mem_map.1 hmem with ⟨item0, hmem0, rfl⟩
      obtain ⟨hq0, hp0, ht0⟩ := hrows item0 hmem0
      by_cases hid : item0.id = rowId
      · simp only [if_pos hid]
        cases edit with
        | productId pid =>
          cases hfind : products.find? (fun (p : ProductFormData) => p.id == pid) with
          | none =>
            simp only [hfind]
            exact ⟨hq0, hp0, mul_nonneg hq0 hp0⟩
          | some product =>
            have hps : 0 ≤ product.sellingPrice :=
              hp product (List.mem_of_find?_eq_some hfind)
            simp only [hfind]
            exact ⟨hq0, hps, mul_nonneg hq0 hps⟩
        | quantity q =>
          exact ⟨le_max_left 0 q, hp0, mul_nonneg (le_max_left 0 q) hp0⟩
        | sellingPrice p2 =>
          exact ⟨hq0, le_max_left 0 p2, mul_nonneg hq0 (le_max_left 0 p2)⟩
      · simp only [if_neg hid]
        exact ⟨hq0, hp0, ht0⟩
    have hsub2 : 0 ≤ (handleItemChange products rowId edit f).subTotal :=
      sumTotals_nonneg _ (fun item hm => (hrows2 item hm).2.2)
    exact ⟨hrows2, hsub2, hrate, gstOf_nonneg _ _ hrate hsub2,
      add_nonneg hsub2 (gstOf_nonneg _ _ hrate hsub2)⟩
  | gstChange val =>
    have hperc : (0 : Rat) ≤ (match val with | none => 0 | some v => max 0 v) := by
      cases val with
      | none => exact le_refl 0
      | some v => exact le_max_left 0 v
    refine ⟨fun item hm => hrows item hm, hsub, hperc, ?_, ?_⟩
    · exact div_nonneg (mul_nonneg hsub hperc) (by norm_num)
    · exact add_nonneg hsub (div_nonneg (mul_nonneg hsub hperc) (by norm_num))

theorem foldSales_nonneg (products : List ProductFormData)
    (hp : ∀ p ∈ products, 0 ≤ p.sellingPrice)
    (acts : List SalesAction) (f : SalesOrderFormData) (hf : salesNonneg f) :
    salesNonneg (acts.foldl (applySalesAction products) f) := by
  induction acts generalizing f with
  | nil => exact hf
  | cons a acts ih =>
    rw [List.foldl_cons]
    exact ih _ (applySalesAction_nonneg products hp f hf a)

/-- C7: starting from the empty sales-order form, any sequence of add-item,
remove-item, line-item edits and GST-rate changes produces non-negative
subTotal, gstAmount and grandTotal (numeric inputs are clamped by the
handlers; the product catalog the form is given carries non-negative selling
prices, as products saved by the product form do). -/
theorem runSalesActions_nonneg (products : List ProductFormData)
    (acts : List SalesAction)
    (hp : ∀ p ∈ products, 0 ≤ p.sellingPrice) :
    0 ≤ (runSalesActions products acts).subTotal ∧
    0 ≤ (runSalesActions products acts).gstAmount ∧
    0 ≤ (runSalesActions products acts).grandTotal := by
  have h0 : salesNonneg defaultFormData := by
    refine ⟨?_, le_refl 0, le_refl 0, le_refl 0, le_refl 0⟩
    intro item hmem
    exact (List.not_mem_nil item hmem).elim
  have h := foldSales_nonneg products hp acts defaultFormData h0
  exact ⟨h.2.1, h.2.2.2.1, h.2.2.2.2⟩

/-- Witness for C7: an add, a quantity edit and a GST change on an empty
catalog leave a non-negative grand total. -/
theorem runSalesActions_nonneg_witness :
    0 ≤ (runSalesActions []
      [.addItem "r1", .itemChange "r1" (.quantity 2),
       .gstChange (some 18)]).grandTotal :=
  (runSalesActions_nonneg []
    [.addItem "r1", .itemChange "r1" (.quantity 2), .gstChange (some 18)]
    (by simp)).2.2

/-- C10: changing a row's product to an id the catalog resolves overwrites
that row's selling price with the catalog selling price and recomputes that
row's total as quantity × the new price, leaving every other row unchanged;
an id the catalog does not resolve leaves the row's selling price as it was
(the row still records the new product id and a total recomputed from the
unchanged price). -/
theorem itemChange_product_autofill (products : List ProductFormData)
    (f : SalesOrderFormData) (rowId pid : String) :
    (∀ product,
      products.find? (fun (p : ProductFormData) => p.id == pid) = some product →
      (handleItemChange products rowId (.productId pid) f).items =
        f.items.map (fun item =>
          if item.id = rowId then
            { item with
              productId := pid
              sellingPrice := product.sellingPrice
              total := item.quantity * product.sellingPrice }
          else item)) ∧
    (products.find? (fun (p : ProductFormData) => p.id == pid) = none →
      (handleItemChange products rowId (.productId pid) f).items =
        f.items.map (fun item =>
          if item.id = rowId then
            { item with
              productId := pid
              total := item.quantity * item.sellingPrice }
          else item)) := by
  constructor
  · intro product hfind
    show f.items.map _ = f.items.map _
    apply List.map_congr_left
    intro item hmem
    by_cases hid : item.id = rowId
    · simp only [if_pos hid, hfind]
    · simp only [if_neg hid]
  · intro hfind
    show f.items.map _ = f.items.map _
    apply List.map_congr_left
    intro item hmem
    by_cases hid : item.id = rowId
    · simp only [if_pos hid, hfind]
    · simp only [if_neg hid]

/-- Witness for C10: a catalog holding product "p1" at price 7; changing the
single row to "p1" fills price 7 and total 2 × 7. -/
theorem itemChange_product_autofill_witness :
    (handleItemChange
      [{ id := "p1", sellingPrice := 7, stock := 1, minStock := 1,
         status := "Active", isActive := true }] "r1" (.productId "p1")
      { items := [{ id := "r1", productId := "", quantity := 2,
                    sellingPrice := 3, total := 6 }],
        subTotal := 6, gstPercentage := some 0, gstAmount := 0,
        grandTotal := 6 }).items =
      [{ id := "r1", productId := "", quantity := 2,
         sellingPrice := 3, total := 6 }].map (fun item =>
        if item.id = "r1" then
          { item with
            productId := "p1"
            sellingPrice := (7 : Rat)
            total := item.quantity * (7 : Rat) }
        else item) :=
  (itemChange_product_autofill
    [{ id := "p1", sellingPrice := 7, stock := 1, minStock := 1,
       status := "Active", isActive := true }]
    { items := [{ id := "r1", productId := "", quantity := 2,
                  sellingPrice := 3, total := 6 }],
      subTotal := 6, gstPercentage := some 0, gstAmount := 0,
      grandTotal := 6 } "r1" "p1").1
    { id := "p1", sellingPrice := 7, stock := 1, minStock := 1,
      status := "Active", isActive := true } rfl

/-! ## Bill modal: theorems for claim C9 -/

/-- Each interactive event of the bill modal preserves the reachability
invariant. -/
theorem billStep_inv (st : BillFormState) (hst : billStateInv st)
    (e : BillEvent) (he : billEventOK e) : billStateInv (billStep st e) := by
  obtain ⟨hunpaid, hamt⟩ := hst
  cases e with
  | selectPO po =>
    exact ⟨fun hu => ⟨rfl, (hunpaid hu).2⟩, he⟩
  | statusChange s =>
    cases s with
    | paid => exact ⟨(fun hu => nomatch hu), hamt⟩
    | unpaid => exact ⟨fun _ => ⟨rfl, rfl⟩, hamt⟩
    | partPaid => exact ⟨(fun hu => nomatch hu), hamt⟩
  | setNewPayment val =>
    by_cases hs : st.form.status = .partPaid
    · simp only [billStep, if_pos hs]
      refine ⟨fun hu => ?_, hamt⟩
      rw [hs] at hu
      exact nomatch hu
    · simp only [billStep, if_neg hs]
      exact ⟨hunpaid, hamt⟩

theorem foldBill_inv (events : List BillEvent) (st : BillFormState)
    (hst : billStateInv st) (hev : ∀ e ∈ events, billEventOK e) :
    billStateInv (events.foldl billStep st) := by
  induction events generalizing st with
  | nil => exact hst
  | cons e events ih =>
    rw [List.foldl_cons]
    exact ih _ (billStep_inv st hst e (hev e (by simp)))
      (fun e2 h2 => hev e2 (by simp [h2]))

/-- C9: opening the modal on a bill that satisfies the data-model invariant
(and has a non-negative amount), interacting with the payment controls in
any order (purchase orders offered by the page have non-negative grand
totals), and submitting: if the submission is accepted, the saved bill again
satisfies the invariant: status Paid implies paid at least the amount, and
status Unpaid implies paid amount 0. -/
theorem billSubmit_keeps_invariant (b : BillFormData) (events : List BillEvent)
    (hb : billInvariant b) (hamt : 0 ≤ b.amount)
    (hev : ∀ e ∈ events, billEventOK e) (out : BillFormData)
    (h : handleSubmitBill (runBillEvents b events).form
      (runBillEvents b events).newPaymentAmount = .ok out) :
    billInvariant out := by
  have hinv : billStateInv (runBillEvents b events) :=
    foldBill_inv events (initEditBill b) ⟨fun hu => ⟨hb.2 hu, rfl⟩, hamt⟩ hev
  set st := runBillEvents b events with hstdef
  by_cases hpo : st.form.purchaseOrderId = ""
  · rw [handleSubmitBill, if_pos hpo] at h
    exact Except.noConfusion h
  · simp only [handleSubmitBill, if_neg hpo] at h
    rcases hs : st.form.status with _ | _ | _
    · -- status Unpaid at submission
      obtain ⟨hpaid, hN⟩ := hinv.1 hs
      have hnp : ¬(st.form.status = BillStatus.partPaid) :=
        fun hp => nomatch (hs.symm.trans hp)
      have hnpd : ¬(st.form.status = BillStatus.paid) :=
        fun hp => nomatch (hs.symm.trans hp)
      rw [if_neg (fun hc => hnp hc.1)] at h
      rw [if_neg (fun hc => hnpd hc.1)] at h
      injection h with h
      rw [if_neg (fun hc => hnp hc.1)] at h
      have hmin : min st.form.amount
          (st.form.paidAmount + st.newPaymentAmount) = 0 := by
        rw [hpaid, hN, add_zero]
        exact min_eq_right hinv.2
      subst h
      exact ⟨fun hc => absurd hc hnpd, fun _ => hmin⟩
    · -- status Partially Paid at submission
      have hnpd : ¬(st.form.status = BillStatus.paid) :=
        fun hp => nomatch (hs.symm.trans hp)
      have hnu : ¬(st.form.status = BillStatus.unpaid) :=
        fun hp => nomatch (hs.symm.trans hp)
      by_cases h1 : min st.form.amount
          (st.form.paidAmount + st.newPaymentAmount) ≤ 0
      · rw [if_pos ⟨hs, h1⟩] at h
        exact Except.noConfusion h
      · rw [if_neg (fun hc => h1 hc.2)] at h
        rw [if_neg (fun hc => hnpd hc.1)] at h
        injection h with h
        by_cases h2 : st.form.amount ≤ min st.form.amount
            (st.form.paidAmount + st.newPaymentAmount)
        · rw [if_pos ⟨hs, h2⟩] at h
          subst h
          exact ⟨(fun _ => h2), (fun hu => nomatch hu)⟩
        · rw [if_neg (fun hc => h2 hc.2)] at h
          subst h
          exact ⟨fun hc => absurd hc hnpd, fun hu => absurd hu hnu⟩
    · -- status Paid at submission
      have hnp : ¬(st.form.status = BillStatus.partPaid) :=
        fun hp => nomatch (hs.symm.trans hp)
      have hnu : ¬(st.form.status = BillStatus.unpaid) :=
        fun hp => nomatch (hs.symm.trans hp)
      rw [if_neg (fun hc => hnp hc.1)] at h
      by_cases h3 : min st.form.amount
          (st.form.paidAmount + st.newPaymentAmount) < st.form.amount
      · rw [if_pos ⟨hs, h3⟩] at h
        exact Except.noConfusion h
      · rw [if_neg (fun hc => h3 hc.2)] at h
        injection h with h
        rw [if_neg (fun hc => hnp hc.1)] at h
        subst h
        exact ⟨fun _ => not_lt.1 h3, fun hu => absurd hu hnu⟩

/-- Witness for C9: a loaded bill of amount 100 already fully paid with
status Paid, submitted with no further interaction: accepted, and the saved
bill satisfies the invariant. -/
theorem billSubmit_keeps_invariant_witness :
    billInvariant { id := "b1", purchaseOrderId := "PO-1", amount := 100,
                    paidAmount := 100, status := .paid } :=
  billSubmit_keeps_invariant
    { id := "b1", purchaseOrderId := "PO-1", amount := 100,
      paidAmount := 100, status := .paid } []
    ⟨fun _ => le_refl 100, fun hu => nomatch hu⟩ (by norm_num) (by simp)
    { id := "b1", purchaseOrderId := "PO-1", amount := 100,
      paidAmount := 100, status := .paid }
    (by norm_num [runBillEvents, initEditBill, handleSubmitBill]; simp)

end Inventory
